import Mathlib

/-!
Shallow embedding of the spreadsheet read / edit / write core of the
repository (`src-tauri/src/excel.rs`), together with theorems settling the
frozen claims about it.

The container codec (calamine / rust_xlsxwriter) is third-party and treated
per the spec as an opaque, value-preserving grid store: a saved sheet is its
name plus the grid of typed cells that the write calls emitted (`Data.empty`
standing for a cell the writer skipped), and reading returns exactly the
cells of that grid.  Machine `f64` values are never computed with here, so
the embedding is parametric in the float carrier `F` together with the three
host operations the code uses on it (`i64 as f64` conversion, `to_string`
display, and `str::parse::<f64>`); every theorem holds for any such carrier,
and witnesses instantiate `F := Int` with a concrete executable model.
-/

namespace ExcelCore

/-- The host float operations `excel.rs` uses on `f64`: conversion from
`i64` (`i as f64`, line 130), display (`n.to_string()`, line 84), and
parsing (`update.value.parse::<f64>()`, line 200). -/
class FloatRepr (F : Type) where
  intToF : Int → F
  floatToStr : F → String
  parseFloat : String → Option F

/-- `DataValue` (excel.rs lines 26–34): the tagged union a cell's content is
held as in memory. -/
inductive DataValue (F : Type) where
  | Text : String → DataValue F
  | Number : F → DataValue F
  | Integer : Int → DataValue F
  | Boolean : Bool → DataValue F
  | Empty : DataValue F
deriving DecidableEq

/-- The parsed cell content type produced by the workbook reader (calamine's
`Data`); `dateTime` carries the `f64` serial that `d.as_f64()` (line 45)
returns. -/
inductive Data (F : Type) where
  | string : String → Data F
  | float : F → Data F
  | int : Int → Data F
  | bool : Bool → Data F
  | empty : Data F
  | error : Data F
  | dateTime : F → Data F
  | dateTimeIso : String → Data F
  | durationIso : String → Data F
deriving DecidableEq

variable {F : Type}

/-- `impl From<Data> for DataValue` (excel.rs lines 36–50). -/
def DataValue.fromData : Data F → DataValue F
  | .string s => .Text s
  | .float f => .Number f
  | .int i => .Integer i
  | .bool b => .Boolean b
  | .empty => .Empty
  | .error => .Empty
  | .dateTime d => .Number d
  | .dateTimeIso s => .Text s
  | .durationIso s => .Text s

/-- `ExcelData` (excel.rs lines 19–24): one sheet materialized in memory. -/
structure ExcelData (F : Type) where
  headers : List String
  rows : List (List (DataValue F))
  sheet_name : String
deriving DecidableEq

/-- A sheet of the saved container: its name and the grid of cells the write
calls emitted, `Data.empty` at positions the writer skipped. -/
structure SavedSheet (F : Type) where
  name : String
  grid : List (List (Data F))
deriving DecidableEq

/-- `CellUpdate` (excel.rs lines 166–172): `row` is 1-based, `column`
0-based, `header` informational only. -/
structure CellUpdate where
  row : Nat
  column : Nat
  value : String
  header : Option String
deriving DecidableEq

/-- Rust `str::to_lowercase()`, modelled as character-wise lowercasing. -/
def lowerStr (s : String) : String := ⟨s.data.map Char.toLower⟩

/-- Is `pat` a prefix of some suffix of the second list. -/
def infixFrom (pat : List Char) : List Char → Bool
  | [] => pat.isEmpty
  | c :: cs => pat.isPrefixOf (c :: cs) || infixFrom pat cs

/-- Rust `s.contains(pat)`: substring containment. -/
def strContains (s pat : String) : Bool := infixFrom pat.toList s.toList

/-- The per-sheet header-row heuristic (excel.rs lines 63–69). -/
def headerRowIndex (name : String) : Nat :=
  if strContains (lowerStr name) "pipeline" then 10
  else if strContains (lowerStr name) "program" && !strContains (lowerStr name) "vacation" then 2
  else 0

/-- `sheet_name.to_lowercase().contains("vacation")` (excel.rs lines 80, 92). -/
def isVacation (name : String) : Bool := strContains (lowerStr name) "vacation"

/-- How a header cell is rendered to a string (excel.rs lines 81–87). -/
def headerCellString [FloatRepr F] : DataValue F → String
  | .Text s => s
  | .Number n => FloatRepr.floatToStr n
  | _ => ""

/-- The `rows` field the reader builds: every grid row, converted cell-wise
through `DataValue::from` (excel.rs lines 71–77; note the header row is
pushed too). -/
def sheetRows (s : SavedSheet F) : List (List (DataValue F)) :=
  s.grid.map (fun r => r.map DataValue.fromData)

/-- Reading one sheet (excel.rs lines 57–103): all rows are kept as data;
headers come from the heuristic row unless the name contains "vacation", in
which case synthetic "Col0", "Col1", … labels sized to the first row are
made (lines 91–96). -/
def readSheet [FloatRepr F] (s : SavedSheet F) : ExcelData F :=
  let rows := sheetRows s
  let headers :=
    if isVacation s.name then
      (List.range (rows.headD []).length).map (fun i => "Col" ++ toString i)
    else
      ((rows[headerRowIndex s.name]?).getD []).map headerCellString
  ⟨headers, rows, s.name⟩

/-- `read_excel_file` (excel.rs lines 52–107) on an already-open container:
one `ExcelData` per sheet, in file order. -/
def read_excel_file [FloatRepr F] (wb : List (SavedSheet F)) : List (ExcelData F) :=
  wb.map readSheet

/-- The cell a data value is written back as (excel.rs lines 127–133):
`Integer i` goes out as the number `i as f64`; `Empty` writes nothing. -/
def writeCell [FloatRepr F] : DataValue F → Data F
  | .Text s => .string s
  | .Number n => .float n
  | .Integer i => .float (FloatRepr.intToF i)
  | .Boolean b => .bool b
  | .Empty => .empty

/-- Writing one sheet (excel.rs lines 112–135): headers become string cells
of grid row 0, every data row is written verbatim at rows 1..N. -/
def writeSheet [FloatRepr F] (d : ExcelData F) : SavedSheet F :=
  ⟨d.sheet_name, (d.headers.map Data.string) :: d.rows.map (fun r => r.map writeCell)⟩

/-- `write_excel_file` (excel.rs lines 109–140). -/
def write_excel_file [FloatRepr F] (data : List (ExcelData F)) : List (SavedSheet F) :=
  data.map writeSheet

/-- Write-side coercion of a user edit string (excel.rs lines 199–210):
parse as f64 first, then case-insensitive "true"/"false", then empty,
else literal text. -/
def coerceValue [FloatRepr F] (s : String) : DataValue F :=
  match (FloatRepr.parseFloat s : Option F) with
  | some n => .Number n
  | none =>
    if lowerStr s = "true" then .Boolean true
    else if lowerStr s = "false" then .Boolean false
    else if s = "" then .Empty
    else .Text s

/-- The row-growth loop (excel.rs lines 184–188): append rows of `Empty`
cells, one per header column, until the 1-based target row exists. -/
def ensureRows (sheet : ExcelData F) (row : Nat) : List (List (DataValue F)) :=
  sheet.rows ++
    List.replicate (row - sheet.rows.length)
      (List.replicate sheet.headers.length DataValue.Empty)

/-- The column-growth loop (excel.rs lines 193–195): append `Empty` cells to
one row until index `col` exists. -/
def ensureCols (r : List (DataValue F)) (col : Nat) : List (DataValue F) :=
  r ++ List.replicate (col + 1 - r.length) DataValue.Empty

/-- One iteration of the batch-update loop body (excel.rs lines 183–212):
grow the rows, and when the 1-based row is in range grow the target row's
columns and overwrite the cell with the coerced value.  (The source's inner
`update.column < len` check is always true after the column growth.) -/
def applyUpdate [FloatRepr F] (sheet : ExcelData F) (u : CellUpdate) : ExcelData F :=
  if 0 < u.row ∧ u.row ≤ (ensureRows sheet u.row).length then
    { sheet with
        rows := (ensureRows sheet u.row).set (u.row - 1)
          ((ensureCols ((ensureRows sheet u.row).getD (u.row - 1) []) u.column).set
            u.column (coerceValue u.value)) }
  else
    { sheet with rows := ensureRows sheet u.row }

/-- The in-memory mutation performed by `update_excel_cells` (excel.rs lines
181–215): every sheet whose name equals the target exactly gets the whole
batch folded over it in array order; other sheets are untouched. -/
def update_cells_sheets [FloatRepr F] (sheets : List (ExcelData F)) (name : String)
    (updates : List CellUpdate) : List (ExcelData F) :=
  sheets.map (fun sheet =>
    if sheet.sheet_name = name then updates.foldl applyUpdate sheet else sheet)

/-- `update_excel_cells` (excel.rs lines 174–219): read, mutate, rewrite. -/
def update_excel_cells [FloatRepr F] (wb : List (SavedSheet F)) (name : String)
    (updates : List CellUpdate) : List (SavedSheet F) :=
  write_excel_file (update_cells_sheets (read_excel_file wb) name updates)

/-- The in-memory mutation performed by `update_excel_cell` (excel.rs lines
151–160): in-place overwrite only, guarded by `0 < row ≤ rows.len` and
`col < row width`; no growth of rows or columns. -/
def update_cell_sheets (sheets : List (ExcelData F)) (name : String)
    (row col : Nat) (v : DataValue F) : List (ExcelData F) :=
  sheets.map (fun sheet =>
    if sheet.sheet_name = name then
      if 0 < row ∧ row ≤ sheet.rows.length then
        if col < (sheet.rows.getD (row - 1) []).length then
          { sheet with
              rows := sheet.rows.set (row - 1)
                ((sheet.rows.getD (row - 1) []).set col v) }
        else sheet
      else sheet
    else sheet)

/-- `update_excel_cell` (excel.rs lines 142–164): read, mutate, rewrite. -/
def update_excel_cell [FloatRepr F] (wb : List (SavedSheet F)) (name : String)
    (row col : Nat) (v : DataValue F) : List (SavedSheet F) :=
  write_excel_file (update_cell_sheets (read_excel_file wb) name row col v)

/-- Digit-string to number, used only by the concrete witness model. -/
def natOfDigits (cs : List Char) : Option Nat :=
  if cs = [] then none
  else if cs.all Char.isDigit then
    some (cs.foldl (fun acc c => acc * 10 + (c.toNat - 48)) 0)
  else none

/-- A simple integer-literal parser, used only by the concrete witness
model. -/
def parseIntStr (s : String) : Option Int :=
  match s.data with
  | '-' :: rest => (natOfDigits rest).map (fun n => -(n : Int))
  | cs => (natOfDigits cs).map (fun n => (n : Int))

/-- Concrete executable float model used by the closed witness and
counterexample theorems: `Int` carried literally. -/
instance : FloatRepr Int where
  intToF := id
  floatToStr := toString
  parseFloat := parseIntStr

/-! ## Helper lemmas shared between the claim theorems -/

/-- Mapping a function that fixes every member is the identity. -/
theorem map_fix_mem {α : Type} (l : List α) (f : α → α) (h : ∀ a ∈ l, f a = a) :
    l.map f = l := by
  induction l with
  | nil => rfl
  | cons a t ih =>
    simp only [List.map_cons, h a (List.mem_cons_self a t)]
    rw [ih (fun x hx => h x (List.mem_cons_of_mem a hx))]

theorem ensureRows_length {F : Type} (sheet : ExcelData F) (row : Nat) :
    (ensureRows sheet row).length = sheet.rows.length + (row - sheet.rows.length) := by
  simp [ensureRows]

theorem ensureRows_le {F : Type} (sheet : ExcelData F) (row : Nat) :
    row ≤ (ensureRows sheet row).length := by
  rw [ensureRows_length]; omega

theorem ensureCols_length {F : Type} (r : List (DataValue F)) (col : Nat) :
    (ensureCols r col).length = r.length + (col + 1 - r.length) := by
  simp [ensureCols]

theorem getD_set_self {α : Type} (l : List α) (i : Nat) (x : α) (d : α)
    (h : i < l.length) : (l.set i x).getD i d = x := by
  rw [List.getD_eq_getElem?_getD, List.getElem?_set_self h, Option.getD_some]

theorem getD_set_ne {α : Type} (l : List α) (i j : Nat) (x : α) (d : α)
    (h : i ≠ j) : (l.set i x).getD j d = l.getD j d := by
  rw [List.getD_eq_getElem?_getD, List.getElem?_set_ne h, ← List.getD_eq_getElem?_getD]

theorem getD_append_left {α : Type} (l l2 : List α) (i : Nat) (d : α)
    (h : i < l.length) : (l ++ l2).getD i d = l.getD i d := by
  rw [List.getD_eq_getElem?_getD, List.getElem?_append_left h, ← List.getD_eq_getElem?_getD]

/-- When the 1-based target row is positive the update takes the in-range
branch. -/
theorem applyUpdate_rows {F : Type} [FloatRepr F] (sheet : ExcelData F) (u : CellUpdate)
    (h : 0 < u.row) :
    (applyUpdate sheet u).rows =
      (ensureRows sheet u.row).set (u.row - 1)
        ((ensureCols ((ensureRows sheet u.row).getD (u.row - 1) []) u.column).set
          u.column (coerceValue u.value)) := by
  unfold applyUpdate
  rw [if_pos ⟨h, ensureRows_le sheet u.row⟩]

theorem applyUpdate_headers {F : Type} [FloatRepr F] (sheet : ExcelData F) (u : CellUpdate) :
    (applyUpdate sheet u).headers = sheet.headers := by
  unfold applyUpdate; split <;> rfl

/-- After an update with positive row, the targeted cell holds the coerced
value. -/
theorem applyUpdate_cell {F : Type} [FloatRepr F] (sheet : ExcelData F) (u : CellUpdate)
    (h : 0 < u.row) :
    (((applyUpdate sheet u).rows.getD (u.row - 1) []).getD u.column DataValue.Empty)
      = coerceValue u.value := by
  rw [applyUpdate_rows sheet u h]
  have h1 : u.row - 1 < (ensureRows sheet u.row).length := by
    have := ensureRows_le sheet u.row; omega
  have h2 : u.column <
      (ensureCols ((ensureRows sheet u.row).getD (u.row - 1) []) u.column).length := by
    rw [ensureCols_length]; omega
  rw [getD_set_self _ _ _ _ h1, getD_set_self _ _ _ _ h2]

/-- After an update with positive row, the targeted position is in range. -/
theorem applyUpdate_bounds {F : Type} [FloatRepr F] (sheet : ExcelData F) (u : CellUpdate)
    (h : 0 < u.row) :
    u.row - 1 < (applyUpdate sheet u).rows.length
    ∧ u.column < ((applyUpdate sheet u).rows.getD (u.row - 1) []).length := by
  have h1 : u.row - 1 < (ensureRows sheet u.row).length := by
    have := ensureRows_le sheet u.row; omega
  constructor
  · rw [applyUpdate_rows sheet u h, List.length_set]; exact h1
  · rw [applyUpdate_rows sheet u h, getD_set_self _ _ _ _ h1, List.length_set,
      ensureCols_length]
    omega

/-- An update that does not target cell `(r, c)` (1-based row `r + 1`,
column `c`) leaves that cell, and the bounds making it addressable,
intact. -/
theorem applyUpdate_preserve {F : Type} [FloatRepr F] (sheet : ExcelData F) (v : CellUpdate)
    (r c : Nat) (hr : r < sheet.rows.length) (hc : c < (sheet.rows.getD r []).length)
    (hne : v.row ≠ r + 1 ∨ v.column ≠ c) :
    r < (applyUpdate sheet v).rows.length
    ∧ c < ((applyUpdate sheet v).rows.getD r []).length
    ∧ ((applyUpdate sheet v).rows.getD r []).getD c DataValue.Empty
        = (sheet.rows.getD r []).getD c DataValue.Empty := by
  by_cases hv : 0 < v.row
  · have hrow : (ensureRows sheet v.row).getD r [] = sheet.rows.getD r [] := by
      unfold ensureRows; exact getD_append_left _ _ _ _ hr
    have hlen : r < (ensureRows sheet v.row).length := by
      rw [ensureRows_length]; omega
    rcases eq_or_ne (v.row - 1) r with heq | hneq
    · -- the update lands in row `r` but at a different column
      have hcol : v.column ≠ c := by
        rcases hne with h1 | h2
        · omega
        · exact h2
      rw [applyUpdate_rows sheet v hv]
      have hgd : ((ensureRows sheet v.row).set (v.row - 1)
          ((ensureCols ((ensureRows sheet v.row).getD (v.row - 1) []) v.column).set
            v.column (coerceValue v.value))).getD r []
          = (ensureCols (sheet.rows.getD r []) v.column).set
              v.column (coerceValue v.value) := by
        rw [← heq, getD_set_self _ _ _ _ (heq ▸ hlen), heq, hrow]
      refine ⟨by rw [List.length_set]; exact hlen, ?_, ?_⟩
      · rw [hgd, List.length_set, ensureCols_length]; omega
      · rw [hgd, getD_set_ne _ _ _ _ _ hcol]
        unfold ensureCols
        rw [getD_append_left _ _ _ _ hc]
    · -- the update lands in a different row
      rw [applyUpdate_rows sheet v hv]
      have hgd : ((ensureRows sheet v.row).set (v.row - 1)
          ((ensureCols ((ensureRows sheet v.row).getD (v.row - 1) []) v.column).set
            v.column (coerceValue v.value))).getD r []
          = sheet.rows.getD r [] := by
        rw [getD_set_ne _ _ _ _ _ hneq, hrow]
      exact ⟨by rw [List.length_set]; exact hlen, by rw [hgd]; exact hc, by rw [hgd]⟩
  · -- `v.row = 0`: the growth loop adds nothing and the guard fails
    have hv0 : v.row = 0 := by omega
    have : applyUpdate sheet v = { sheet with rows := ensureRows sheet v.row } := by
      unfold applyUpdate
      rw [if_neg (by omega)]
    rw [this]
    have hrows : ensureRows sheet v.row = sheet.rows := by
      unfold ensureRows
      rw [hv0, Nat.zero_sub, List.replicate_zero, List.append_nil]
    rw [hrows]
    exact ⟨hr, hc, rfl⟩

/-- Folding further updates that never target cell `(r, c)` leaves the cell
value intact. -/
theorem foldl_preserve {F : Type} [FloatRepr F] (vs : List CellUpdate) (r c : Nat)
    (val : DataValue F) :
    ∀ S : ExcelData F, r < S.rows.length → c < (S.rows.getD r []).length →
      (S.rows.getD r []).getD c DataValue.Empty = val →
      (∀ v ∈ vs, v.row ≠ r + 1 ∨ v.column ≠ c) →
      ((vs.foldl applyUpdate S).rows.getD r []).getD c DataValue.Empty = val := by
  induction vs with
  | nil => intro S _ _ hval _; exact hval
  | cons v t ih =>
    intro S hr hc hval hv
    obtain ⟨h1, h2, h3⟩ :=
      applyUpdate_preserve S v r c hr hc (hv v (List.mem_cons_self v t))
    exact ih (applyUpdate S v) h1 h2 (h3.trans hval)
      (fun x hx => hv x (List.mem_cons_of_mem v hx))

/-! ## Claim theorems -/

/-- C4: write-side coercion of a user edit string is total and follows the
priority order of excel.rs lines 199–210: a string the float parser accepts
becomes `Number`; otherwise a string whose lowercasing is "true"/"false"
becomes `Boolean`; otherwise the empty string becomes `Empty`; anything else
becomes `Text` holding the literal string.  No input ever coerces to
`Integer`. -/
theorem c4_write_coercion {F : Type} [FloatRepr F] (s : String) :
    (∀ n : F, FloatRepr.parseFloat s = some n → coerceValue s = DataValue.Number n)
    ∧ ((FloatRepr.parseFloat s : Option F) = none → lowerStr s = "true" →
        (coerceValue s : DataValue F) = DataValue.Boolean true)
    ∧ ((FloatRepr.parseFloat s : Option F) = none → lowerStr s ≠ "true" →
        lowerStr s = "false" → (coerceValue s : DataValue F) = DataValue.Boolean false)
    ∧ ((FloatRepr.parseFloat s : Option F) = none → lowerStr s ≠ "true" →
        lowerStr s ≠ "false" → s = "" → (coerceValue s : DataValue F) = DataValue.Empty)
    ∧ ((FloatRepr.parseFloat s : Option F) = none → lowerStr s ≠ "true" →
        lowerStr s ≠ "false" → s ≠ "" → (coerceValue s : DataValue F) = DataValue.Text s)
    ∧ (∀ i : Int, (coerceValue s : DataValue F) ≠ DataValue.Integer i) := by
  refine ⟨?_, ?_, ?_, ?_, ?_, ?_⟩
  · intro n hn; simp [coerceValue, hn]
  · intro hp ht; simp [coerceValue, hp, ht]
  · intro hp ht hf; simp [coerceValue, hp, ht, hf]
  · intro hp ht hf he; subst he; simp [coerceValue, hp, ht, hf]
  · intro hp ht hf he; simp [coerceValue, hp, ht, hf, he]
  · intro i
    rcases hp : (FloatRepr.parseFloat s : Option F) with _ | n
    · simp only [coerceValue, hp]
      split_ifs <;> simp
    · simp [coerceValue, hp]

/-- Witness for C4 at concrete inputs of the executable `Int` model:
"TRUE" fails the parse, so the case-insensitive boolean branch fires. -/
theorem c4_write_coercion_witness :
    (coerceValue "TRUE" : DataValue Int) = DataValue.Boolean true :=
  (c4_write_coercion "TRUE").2.1 (by decide) (by decide)

/-- C8: read-side coercion (excel.rs lines 36–50) maps parsed string
content to `Text`, floats to `Number`, integers to `Integer`, booleans to
`Boolean`, empty and error content to `Empty`, and the textual (ISO)
date-time and duration forms to `Text` carrying their display string; the
serial date-time form carries its `as_f64` value into `Number`.  No calendar
type exists on the target side. -/
theorem c8_read_coercion {F : Type} (s : String) (f : F) (i : Int) (b : Bool) :
    DataValue.fromData (Data.string s : Data F) = DataValue.Text s
    ∧ DataValue.fromData (Data.float f : Data F) = DataValue.Number f
    ∧ DataValue.fromData (Data.int i : Data F) = DataValue.Integer i
    ∧ DataValue.fromData (Data.bool b : Data F) = DataValue.Boolean b
    ∧ DataValue.fromData (Data.empty : Data F) = DataValue.Empty
    ∧ DataValue.fromData (Data.error : Data F) = DataValue.Empty
    ∧ DataValue.fromData (Data.dateTime f : Data F) = DataValue.Number f
    ∧ DataValue.fromData (Data.dateTimeIso s : Data F) = DataValue.Text s
    ∧ DataValue.fromData (Data.durationIso s : Data F) = DataValue.Text s :=
  ⟨rfl, rfl, rfl, rfl, rfl, rfl, rfl, rfl, rfl⟩

/-- C5: header-row selection on read (excel.rs lines 62–96).  A name
containing "pipeline" (case-insensitively) selects index 10; otherwise
"program" without "vacation" selects index 2; otherwise index 0.  For
non-"vacation" sheets the headers are the selected row rendered cell-wise
(missing row ⇒ no headers); for "vacation" sheets the headers are the
synthetic labels "Col0", "Col1", … sized to the first row's width. -/
theorem c5_header_row_selection {F : Type} [FloatRepr F] (s : SavedSheet F) :
    (strContains (lowerStr s.name) "pipeline" = true → headerRowIndex s.name = 10)
    ∧ (strContains (lowerStr s.name) "pipeline" = false →
        strContains (lowerStr s.name) "program" = true →
        strContains (lowerStr s.name) "vacation" = false →
        headerRowIndex s.name = 2)
    ∧ (strContains (lowerStr s.name) "pipeline" = false →
        strContains (lowerStr s.name) "program" = false →
        headerRowIndex s.name = 0)
    ∧ (isVacation s.name = false →
        (readSheet s).headers =
          (((sheetRows s)[headerRowIndex s.name]?).getD []).map headerCellString)
    ∧ (isVacation s.name = true →
        (readSheet s).headers =
          (List.range ((sheetRows s).headD []).length).map (fun i => "Col" ++ toString i)) := by
  refine ⟨?_, ?_, ?_, ?_, ?_⟩
  · intro h; simp [headerRowIndex, h]
  · intro h1 h2 h3; simp [headerRowIndex, h1, h2, h3]
  · intro h1 h2; simp [headerRowIndex, h1, h2]
  · intro h; simp [readSheet, h]
  · intro h; simp [readSheet, h]

/-- Witness for C5 at two concrete sheets of the executable `Int` model: a
"pipeline" name selects row index 10, and a "vacation" sheet synthesizes
positional labels sized to its first row. -/
theorem c5_header_row_selection_witness :
    headerRowIndex "Resource Pipeline" = 10
    ∧ (readSheet (⟨"Vacation Tracker",
        [[Data.string "a", Data.float (2 : Int), Data.bool true]]⟩ : SavedSheet Int)).headers
      = ["Col0", "Col1", "Col2"] := by
  constructor
  · exact (c5_header_row_selection (⟨"Resource Pipeline", []⟩ : SavedSheet Int)).1 (by decide)
  · rw [(c5_header_row_selection (⟨"Vacation Tracker",
      [[Data.string "a", Data.float (2 : Int), Data.bool true]]⟩ : SavedSheet Int)).2.2.2.2
      (by decide)]
    decide

/-- C6: an edit call whose target sheet name matches no sheet of the
workbook (exact, case-sensitive comparison) mutates nothing and raises no
error: both the batch path and the single-cell path return the sheets
unchanged. -/
theorem c6_sheet_not_found {F : Type} [FloatRepr F] (sheets : List (ExcelData F))
    (name : String) (updates : List CellUpdate) (row col : Nat) (v : DataValue F)
    (h : ∀ sh ∈ sheets, sh.sheet_name ≠ name) :
    update_cells_sheets sheets name updates = sheets
    ∧ update_cell_sheets sheets name row col v = sheets := by
  constructor
  · unfold update_cells_sheets
    exact map_fix_mem _ _ (fun sh hs => by rw [if_neg (h sh hs)])
  · unfold update_cell_sheets
    exact map_fix_mem _ _ (fun sh hs => by rw [if_neg (h sh hs)])

/-- Witness for C6: a concrete one-sheet workbook and an absent sheet
name. -/
theorem c6_sheet_not_found_witness :
    update_cells_sheets [(⟨["h"], [[DataValue.Empty]], "S"⟩ : ExcelData Int)] "T"
        [⟨1, 0, "x", none⟩]
      = [⟨["h"], [[DataValue.Empty]], "S"⟩]
    ∧ update_cell_sheets [(⟨["h"], [[DataValue.Empty]], "S"⟩ : ExcelData Int)] "T" 1 0
        (DataValue.Text "x")
      = [⟨["h"], [[DataValue.Empty]], "S"⟩] :=
  c6_sheet_not_found _ _ _ _ _ _ (by decide)

/-- C10: the single-cell update path never extends the sheet — whenever the
1-based row is 0, past the end, or the 0-based column is at or past the
target row's width, every sheet is returned unchanged. -/
theorem c10_update_cell_no_extend {F : Type} (sheets : List (ExcelData F))
    (name : String) (row col : Nat) (v : DataValue F)
    (h : ∀ sh ∈ sheets, sh.sheet_name = name →
      row = 0 ∨ sh.rows.length < row ∨ (sh.rows.getD (row - 1) []).length ≤ col) :
    update_cell_sheets sheets name row col v = sheets := by
  unfold update_cell_sheets
  apply map_fix_mem
  intro sh hs
  by_cases hn : sh.sheet_name = name
  · rw [if_pos hn]
    rcases h sh hs hn with h0 | hlen | hcol
    · rw [if_neg (by omega)]
    · rw [if_neg (by omega)]
    · by_cases hb : 0 < row ∧ row ≤ sh.rows.length
      · rw [if_pos hb, if_neg (by omega)]
      · rw [if_neg hb]
  · rw [if_neg hn]

/-- Witness for C10: row 5 on a one-row sheet is silently ignored. -/
theorem c10_update_cell_no_extend_witness :
    update_cell_sheets [(⟨["h"], [[DataValue.Empty]], "S"⟩ : ExcelData Int)] "S" 5 0
        (DataValue.Text "x")
      = [⟨["h"], [[DataValue.Empty]], "S"⟩] :=
  c10_update_cell_no_extend _ _ _ _ _ (by decide)

/-- C7: the batch is applied sequentially in array order — a batch
`us ++ u :: vs` first folds `us`, then applies `u`, then folds `vs` — and
the cell targeted by `u` holds `u`'s coerced value afterwards provided no
later update in `vs` targets the same (row, column); in particular, of two
updates in one batch aimed at the same cell, the later one wins. -/
theorem c7_last_write_wins {F : Type} [FloatRepr F] (sheet : ExcelData F) (name : String)
    (us vs : List CellUpdate) (u : CellUpdate)
    (hn : sheet.sheet_name = name) (hr : 0 < u.row)
    (hv : ∀ v ∈ vs, v.row ≠ u.row ∨ v.column ≠ u.column) :
    update_cells_sheets [sheet] name (us ++ u :: vs)
      = [vs.foldl applyUpdate (applyUpdate (us.foldl applyUpdate sheet) u)]
    ∧ ∀ t ∈ update_cells_sheets [sheet] name (us ++ u :: vs),
        (t.rows.getD (u.row - 1) []).getD u.column DataValue.Empty
          = coerceValue u.value := by
  have he : update_cells_sheets [sheet] name (us ++ u :: vs)
      = [vs.foldl applyUpdate (applyUpdate (us.foldl applyUpdate sheet) u)] := by
    simp [update_cells_sheets, hn, List.foldl_append]
  refine ⟨he, ?_⟩
  intro t ht
  rw [he, List.mem_singleton] at ht
  subst ht
  obtain ⟨hb1, hb2⟩ := applyUpdate_bounds (us.foldl applyUpdate sheet) u hr
  exact foldl_preserve vs (u.row - 1) u.column (coerceValue u.value) _ hb1 hb2
    (applyUpdate_cell _ u hr)
    (fun v hvmem => by rcases hv v hvmem with h1 | h2
                       · left; omega
                       · right; exact h2)

/-- Witness for C7: in the batch ["first", "second" at cell (1,0), then an
update of a different cell], the final value of cell (1,0) is the coerced
"second". -/
theorem c7_last_write_wins_witness :
    (((update_cells_sheets [(⟨["h"], [], "S"⟩ : ExcelData Int)] "S"
        [⟨1, 0, "first", none⟩, ⟨1, 0, "second", none⟩, ⟨2, 0, "other", none⟩]).headD
          ⟨[], [], ""⟩).rows.getD 0 []).getD 0 DataValue.Empty
      = DataValue.Text "second" :=
  (c7_last_write_wins (⟨["h"], [], "S"⟩ : ExcelData Int) "S"
    [⟨1, 0, "first", none⟩] [⟨2, 0, "other", none⟩] ⟨1, 0, "second", none⟩
    rfl (by decide) (by decide)).2 _ (by decide)

/-- C9: growth is monotonic and ragged.  With `R` rows and a target 1-based
row `N > R`: the row-growth loop yields exactly `N` rows, keeps rows `1..R`
untouched and fills rows `R+1..N` with `Empty` cells one per header column;
the full update still has exactly `N` rows and modifies no row other than
the target; and a subsequent update with target row at most `N` leaves the
row count at `N`. -/
theorem c9_growth {F : Type} [FloatRepr F] (sheet : ExcelData F) (u u2 : CellUpdate)
    (hR : sheet.rows.length < u.row) (h2 : u2.row ≤ u.row) :
    (ensureRows sheet u.row).length = u.row
    ∧ (∀ i, i < sheet.rows.length → (ensureRows sheet u.row)[i]? = sheet.rows[i]?)
    ∧ (∀ i, sheet.rows.length ≤ i → i < u.row →
        (ensureRows sheet u.row)[i]? =
          some (List.replicate sheet.headers.length DataValue.Empty))
    ∧ (applyUpdate sheet u).rows.length = u.row
    ∧ (∀ i, i ≠ u.row - 1 →
        (applyUpdate sheet u).rows[i]? = (ensureRows sheet u.row)[i]?)
    ∧ (applyUpdate (applyUpdate sheet u) u2).rows.length = u.row := by
  have hpos : 0 < u.row := by omega
  have hlen : (ensureRows sheet u.row).length = u.row := by
    rw [ensureRows_length]; omega
  refine ⟨hlen, ?_, ?_, ?_, ?_, ?_⟩
  · intro i hi
    unfold ensureRows
    exact List.getElem?_append_left hi
  · intro i h1 hi2
    unfold ensureRows
    rw [List.getElem?_append_right h1, List.getElem?_replicate_of_lt (by omega)]
  · rw [applyUpdate_rows sheet u hpos, List.length_set, hlen]
  · intro i hne
    rw [applyUpdate_rows sheet u hpos]
    exact List.getElem?_set_ne (Ne.symm hne)
  · have hL : (applyUpdate sheet u).rows.length = u.row := by
      rw [applyUpdate_rows sheet u hpos, List.length_set, hlen]
    generalize hq : applyUpdate sheet u = T at hL ⊢
    unfold applyUpdate
    split
    · rw [List.length_set, ensureRows_length, hL]; omega
    · rw [ensureRows_length, hL]; omega

/-- Witness for C9: requesting row 10 on a 3-row sheet yields exactly 10
rows, row 5 (index 4) is an `Empty` row of header width, and a subsequent
update of row 5 keeps the count at 10. -/
theorem c9_growth_witness :
    (ensureRows (⟨["a", "b"],
        [[DataValue.Empty], [DataValue.Empty], [DataValue.Empty]], "S"⟩ : ExcelData Int)
      10).length = 10
    ∧ (ensureRows (⟨["a", "b"],
        [[DataValue.Empty], [DataValue.Empty], [DataValue.Empty]], "S"⟩ : ExcelData Int)
      10)[4]? = some [DataValue.Empty, DataValue.Empty]
    ∧ (applyUpdate (applyUpdate (⟨["a", "b"],
        [[DataValue.Empty], [DataValue.Empty], [DataValue.Empty]], "S"⟩ : ExcelData Int)
          ⟨10, 0, "x", none⟩) ⟨5, 0, "y", none⟩).rows.length = 10 := by
  have h := c9_growth (F := Int)
    ⟨["a", "b"], [[DataValue.Empty], [DataValue.Empty], [DataValue.Empty]], "S"⟩
    ⟨10, 0, "x", none⟩ ⟨5, 0, "y", none⟩ (by decide) (by decide)
  exact ⟨h.1, h.2.2.1 4 (by decide) (by decide), h.2.2.2.2.2⟩

/-- When the target is already in bounds the batch-update step is a plain
in-place overwrite: no row or column is added. -/
theorem applyUpdate_inbounds {F : Type} [FloatRepr F] (sh : ExcelData F) (u : CellUpdate)
    (h0 : 0 < u.row) (h1 : u.row ≤ sh.rows.length)
    (h2 : u.column < (sh.rows.getD (u.row - 1) []).length) :
    applyUpdate sh u
      = { sh with
          rows := sh.rows.set (u.row - 1)
            ((sh.rows.getD (u.row - 1) []).set u.column (coerceValue u.value)) } := by
  have hrow : ensureRows sh u.row = sh.rows := by
    unfold ensureRows
    rw [Nat.sub_eq_zero_of_le h1, List.replicate_zero, List.append_nil]
  have hcol : ensureCols (sh.rows.getD (u.row - 1) []) u.column
      = sh.rows.getD (u.row - 1) [] := by
    unfold ensureCols
    rw [Nat.sub_eq_zero_of_le h2, List.replicate_zero, List.append_nil]
  unfold applyUpdate
  rw [if_pos ⟨h0, ensureRows_le sh u.row⟩, hrow, hcol]

/-- C1 counterexample: on a sheet with headers `["h"]` and no rows, a
single-cell update of row 1 / column 0 is a silent no-op, while the
one-element batch with the same coordinates and the value "x" (which
coerces to `Text "x"`) grows the sheet and writes the cell — the two
in-memory results differ. -/
theorem c1_single_vs_batch_counterexample :
    update_cell_sheets [(⟨["h"], [], "S"⟩ : ExcelData Int)] "S" 1 0 (DataValue.Text "x")
      ≠ update_cells_sheets [(⟨["h"], [], "S"⟩ : ExcelData Int)] "S" [⟨1, 0, "x", none⟩] := by
  decide

/-- C1 amended: the single-cell update agrees with the one-element batch
(carrying the same row, column, and the string whose coercion is the
single-cell value) whenever the target cell already exists in every sheet
matching the name — i.e. the row is within the row count and the column
within that row's width; out of bounds the single-cell path is a no-op
while the batch path grows the sheet. -/
theorem c1_single_is_one_element_batch {F : Type} [FloatRepr F]
    (sheets : List (ExcelData F)) (name : String) (row col : Nat) (s : String)
    (h : ∀ sh ∈ sheets, sh.sheet_name = name →
      0 < row ∧ row ≤ sh.rows.length ∧ col < (sh.rows.getD (row - 1) []).length) :
    update_cell_sheets sheets name row col (coerceValue s)
      = update_cells_sheets sheets name [⟨row, col, s, none⟩] := by
  unfold update_cell_sheets update_cells_sheets
  apply List.map_congr_left
  intro sh hs
  dsimp only
  by_cases hn : sh.sheet_name = name
  · obtain ⟨h0, h1, h2⟩ := h sh hs hn
    rw [if_pos hn, if_pos hn, if_pos ⟨h0, h1⟩, if_pos h2]
    simp only [List.foldl_cons, List.foldl_nil]
    rw [applyUpdate_inbounds sh ⟨row, col, s, none⟩ h0 h1 h2]
  · rw [if_neg hn, if_neg hn]

/-- Witness for C1 (amended): an in-bounds update where both paths produce
the same workbook. -/
theorem c1_single_is_one_element_batch_witness :
    update_cell_sheets [(⟨["h"], [[DataValue.Empty]], "S"⟩ : ExcelData Int)] "S" 1 0
        (coerceValue "5")
      = update_cells_sheets [(⟨["h"], [[DataValue.Empty]], "S"⟩ : ExcelData Int)] "S"
          [⟨1, 0, "5", none⟩] :=
  c1_single_is_one_element_batch _ _ _ _ _ (by decide)

/-- Writing a value, re-parsing it, and writing again is stable: the second
written cell equals the first. -/
theorem writeCell_fromData_writeCell {F : Type} [FloatRepr F] (v : DataValue F) :
    writeCell (DataValue.fromData (writeCell v)) = writeCell v := by
  cases v <;> rfl

/-- C2 counterexample: save a one-sheet workbook (headers `["a"]`, no data
rows), read it back and re-save without edits — the second save's grid has
the header row twice (the read pushed the written header row into `rows`,
and the writer writes headers again at row 0), so the two saves differ. -/
theorem c2_roundtrip_counterexample :
    write_excel_file (read_excel_file
        (write_excel_file [(⟨["a"], [], "data"⟩ : ExcelData Int)]))
      ≠ write_excel_file [(⟨["a"], [], "data"⟩ : ExcelData Int)] := by
  decide

/-- Converting a grid whose cells all survive the write/parse round trip
and writing it again reproduces the grid. -/
theorem grid_roundtrip {F : Type} [FloatRepr F] (G : List (List (Data F)))
    (h : ∀ r ∈ G, ∀ c ∈ r, writeCell (DataValue.fromData c) = c) :
    (G.map (fun r => r.map DataValue.fromData)).map (fun r => r.map writeCell) = G := by
  rw [List.map_map]
  apply map_fix_mem
  intro r hr
  show (r.map DataValue.fromData).map writeCell = r
  rw [List.map_map]
  apply map_fix_mem
  intro c hc
  exact h r hr c hc

/-- Every cell a save emits (header string cells and written data cells)
survives the parse/write round trip. -/
theorem writeSheet_cells {F : Type} [FloatRepr F] (d : ExcelData F) :
    ∀ r ∈ (writeSheet d).grid, ∀ c ∈ r, writeCell (DataValue.fromData c) = c := by
  intro r hr c hc
  unfold writeSheet at hr
  dsimp only at hr
  rw [List.mem_cons] at hr
  rcases hr with hr | hr
  · subst hr
    rw [List.mem_map] at hc
    obtain ⟨h0, _, hh⟩ := hc
    subst hh
    rfl
  · rw [List.mem_map] at hr
    obtain ⟨r0, _, hr0⟩ := hr
    subst hr0
    rw [List.mem_map] at hc
    obtain ⟨v, _, hv⟩ := hc
    subst hv
    exact writeCell_fromData_writeCell v

/-- C2 amended: re-saving a freshly read save output preserves every sheet's
name and reproduces the previous save's entire grid as the data rows, with
one change forced by the code: the extracted header row is prepended (as
string cells) as a new row 0.  Re-saving is therefore not idempotent — each
read/save cycle inserts one extra copy of the header row — but no cell of
the previous save is lost or altered. -/
theorem c2_resave_prepends_headers {F : Type} [FloatRepr F] (data : List (ExcelData F)) :
    write_excel_file (read_excel_file (write_excel_file data))
      = (write_excel_file data).map
          (fun s => ⟨s.name, ((readSheet s).headers.map Data.string) :: s.grid⟩) := by
  unfold write_excel_file read_excel_file
  rw [List.map_map, List.map_map, List.map_map]
  apply List.map_congr_left
  intro d _
  have hgrid : (sheetRows (writeSheet d)).map (fun r => r.map writeCell)
      = (writeSheet d).grid := by
    unfold sheetRows
    exact grid_roundtrip _ (writeSheet_cells d)
  exact congrArg (fun g => SavedSheet.mk (writeSheet d).name
    (((readSheet (writeSheet d)).headers.map Data.string) :: g)) hgrid

/-- C3 counterexample: reading the saved sheet "data" (rows `["a"]`,
`["b"]`; the heuristic points at row index 0) and saving yields a grid whose
row 0 (the written headers) and row 1 (the first written data row) are both
the original header row — the row the heuristic pointed at is *not*
discarded, it is duplicated. -/
theorem c3_header_row_counterexample :
    write_excel_file (read_excel_file
        [(⟨"data", [[Data.string "a"], [Data.string "b"]]⟩ : SavedSheet Int)])
      = [⟨"data", [[Data.string "a"], [Data.string "a"], [Data.string "b"]]⟩] := by
  decide

/-- C3 amended: on save, the header list is written as grid row 0 and every
data row is written verbatim at rows 1..N — nothing is discarded; and on
read every grid row (the one the header heuristic points at included) is
kept in `rows`.  Hence saving a freshly read sheet duplicates the header
row rather than discarding it. -/
theorem c3_save_layout {F : Type} [FloatRepr F] (d : ExcelData F) (s : SavedSheet F) :
    (writeSheet d).grid.length = d.rows.length + 1
    ∧ (writeSheet d).grid[0]? = some (d.headers.map Data.string)
    ∧ (∀ i : Nat, (writeSheet d).grid[i + 1]? = (d.rows[i]?).map (fun r => r.map writeCell))
    ∧ (readSheet s).rows.length = s.grid.length := by
  refine ⟨?_, ?_, ?_, ?_⟩
  · simp [writeSheet]
  · simp [writeSheet]
  · intro i
    simp [writeSheet]
  · simp [readSheet, sheetRows]

end ExcelCore
